import Mathlib

/- Verification of the client-side data transformations of the amaze-frontend
repository (dashboards for daily sales reports, expenses and HR attendance).

JavaScript strings are modelled as `List Char`.  JavaScript `Date` time values
are modelled as integers counting minutes since the Unix epoch (every instant
this code constructs has zero seconds and milliseconds).  The `Date` model
below follows the ECMAScript specification's definitions (DayFromYear,
MakeDay, HourFromTime, ...), including the rule that `Date.UTC` maps a year
argument between 0 and 99 to 1900 + year. -/

namespace Amaze

/-! ## Strings: split, digits, padding -/

/-- JavaScript `s.split(sep)` for a single-character separator: always returns
a non-empty list of (possibly empty) fragments. -/
def splitOnChar (c : Char) : List Char → List (List Char)
  | [] => [[]]
  | x :: xs =>
    if x = c then [] :: splitOnChar c xs
    else
      match splitOnChar c xs with
      | h :: t => (x :: h) :: t
      | [] => [[x]]

/-- Value of a decimal digit character, if it is one. -/
def decDigit? (c : Char) : Option Nat :=
  if 48 ≤ c.toNat ∧ c.toNat ≤ 57 then some (c.toNat - 48) else none

/-- Left-to-right decimal accumulation over a digit string. -/
def digitsValAux (acc : Nat) : List Char → Option Nat
  | [] => some acc
  | c :: cs => (decDigit? c).bind fun d => digitsValAux (acc * 10 + d) cs

/-- Numeric value of a non-empty all-digit string; `none` on any other string
(modelling a NaN result). -/
def digitsVal? (l : List Char) : Option Nat :=
  if l = [] then none else digitsValAux 0 l

/-- JavaScript `Number(s)` restricted to the strings this application feeds
it: the empty string yields 0, a non-empty digit string yields its value, and
anything else is NaN (`none`).  (Signs, decimals, exponents and whitespace do
not occur in the date/time fragments handled here and are mapped to NaN.) -/
def jsNumberNat (l : List Char) : Option Nat :=
  if l = [] then some 0 else digitsVal? l

/-- Decimal digit character of `n % 10`. -/
def digitChar (n : Nat) : Char := Char.ofNat (48 + n % 10)

/-- JavaScript `String(n).padStart(2, "0")` for `n < 100`. -/
def pad2 (n : Nat) : List Char := [digitChar (n / 10), digitChar n]

/-- Four-digit zero-padded decimal rendering of `n < 10000`, as used for the
year field of `Date.prototype.toISOString`. -/
def pad4 (n : Nat) : List Char :=
  [digitChar (n / 1000), digitChar (n / 100), digitChar (n / 10), digitChar n]

/-! ## The ECMAScript `Date` model (minutes precision) -/

/-- ECMAScript DayFromYear: days from 1970-01-01 to January 1 of year `y`
(Lean's `Int` division is floor division for positive divisors, matching the
specification's `floor`). -/
def dayFromYear (y : Int) : Int :=
  365 * (y - 1970) + (y - 1969) / 4 - (y - 1901) / 100 + (y - 1601) / 400

/-- Gregorian leap year (ECMAScript DaysInYear = 366). -/
def isLeap (y : Int) : Bool :=
  (y % 4 == 0) && ((y % 100 != 0) || (y % 400 == 0))

/-- Cumulative day counts before each 0-based month of a non-leap year. -/
def monthDaysBefore (mn : Int) : Int :=
  if mn ≤ 0 then 0
  else if mn = 1 then 31
  else if mn = 2 then 59
  else if mn = 3 then 90
  else if mn = 4 then 120
  else if mn = 5 then 151
  else if mn = 6 then 181
  else if mn = 7 then 212
  else if mn = 8 then 243
  else if mn = 9 then 273
  else if mn = 10 then 304
  else 334

/-- 1 on a leap year, 0 otherwise. -/
def leapDays (ℓ : Bool) : Int := if ℓ then 1 else 0

/-- Days before 0-based month `mn` in a year whose leap flag is `ℓ`. -/
def monthOffset (ℓ : Bool) (mn : Int) : Int :=
  monthDaysBefore mn + (if 2 ≤ mn then leapDays ℓ else 0)

/-- Length of 1-based month `m` in a year with leap flag `ℓ`. -/
def monthLen (ℓ : Bool) (m : Int) : Int :=
  if m = 2 then (if ℓ then 29 else 28)
  else if m = 4 ∨ m = 6 ∨ m = 9 ∨ m = 11 then 30
  else 31

/-- Number of days of 1-based month `m` of year `y`. -/
def daysInMonth (y m : Int) : Int := monthLen (isLeap y) m

/-- ECMAScript MakeDay for a 1-based month argument `m1` (the sources call
`Date.UTC(year, month - 1, day, ...)`): months outside 1..12 carry into the
year, and the day is added without range checking. -/
def makeDay (y m1 d : Int) : Int :=
  dayFromYear (y + (m1 - 1) / 12) +
    monthOffset (isLeap (y + (m1 - 1) / 12)) ((m1 - 1) % 12) + (d - 1)

/-- The year fix-up step of `Date.UTC`: integer years 0..99 are interpreted
as 1900..1999. -/
def fixupYear (y : Int) : Int := if 0 ≤ y ∧ y ≤ 99 then 1900 + y else y

/-- Time value (in minutes since the epoch) produced by
`Date.UTC(y, m1 - 1, d, hh, mm, 0)`. -/
def jsDateUTC (y m1 d hh mm : Int) : Int :=
  makeDay (fixupYear y) m1 d * 1440 + hh * 60 + mm

/-- ECMAScript Day(t): the UTC day number holding instant `t`. -/
def dayOfInstant (t : Int) : Int := t / 1440

/-- ECMAScript HourFromTime. -/
def utcHour (t : Int) : Int := t % 1440 / 60

/-- ECMAScript MinFromTime. -/
def utcMin (t : Int) : Int := t % 60

/-- Executable ECMAScript YearFromTime, given a day number: an estimate from
the 400-year cycle (146097 days) corrected by at most one in either
direction.  `yearOfDay_eq` below proves it returns the unique year whose span
contains the day. -/
def yearOfDay (D : Int) : Int :=
  if D < dayFromYear (1970 + 400 * D / 146097) then 1970 + 400 * D / 146097 - 1
  else if D < dayFromYear (1970 + 400 * D / 146097 + 1) then 1970 + 400 * D / 146097
  else 1970 + 400 * D / 146097 + 1

/-- UTC calendar year of instant `t` (ECMAScript YearFromTime). -/
def utcYear (t : Int) : Int := yearOfDay (dayOfInstant t)

/-- ECMAScript DayWithinYear. -/
def utcDoy (t : Int) : Int := dayOfInstant t - dayFromYear (utcYear t)

/-- ECMAScript MonthFromTime as a 1-based month, written on the day of the
year exactly as the specification's case distinction (`k` is the
specification's InLeapYear value, 0 or 1). -/
def monthOfDoy (k : Int) (doy : Int) : Int :=
  if doy < 31 then 1
  else if doy < 59 + k then 2
  else if doy < 90 + k then 3
  else if doy < 120 + k then 4
  else if doy < 151 + k then 5
  else if doy < 181 + k then 6
  else if doy < 212 + k then 7
  else if doy < 243 + k then 8
  else if doy < 273 + k then 9
  else if doy < 304 + k then 10
  else if doy < 334 + k then 11
  else 12

/-- UTC 1-based month of instant `t` (getUTCMonth() + 1). -/
def utcMonth1 (t : Int) : Int :=
  monthOfDoy (leapDays (isLeap (utcYear t))) (utcDoy t)

/-- ECMAScript DateFromTime: the UTC day of month of instant `t`. -/
def utcDate (t : Int) : Int :=
  utcDoy t - monthOffset (isLeap (utcYear t)) (utcMonth1 t - 1) + 1

/-- The string `Date.prototype.toISOString` renders for a time value `t`
with zero seconds/milliseconds and a UTC year in 0..9999
("YYYY-MM-DDTHH:MM:SS.sssZ"). -/
def isoOfMinutes (t : Int) : List Char :=
  pad4 (utcYear t).toNat ++ '-' :: pad2 (utcMonth1 t).toNat ++
    '-' :: pad2 (utcDate t).toNat ++ 'T' :: pad2 (utcHour t).toNat ++
    ':' :: pad2 (utcMin t).toNat ++ ':' :: pad2 0 ++
    '.' :: pad2 0 ++ digitChar 0 :: ['Z']

/-! ## Basic lemmas: the date model -/

theorem dayFromYear_succ (y : Int) :
    dayFromYear (y + 1) = dayFromYear y + 365 + leapDays (isLeap y) := by
  simp only [dayFromYear, isLeap, leapDays, Bool.and_eq_true, Bool.or_eq_true, beq_iff_eq,
    bne_iff_ne, ne_eq]
  split <;> omega

theorem guess_close (D y : Int) (h1 : dayFromYear y ≤ D) (h2 : D < dayFromYear (y + 1)) :
    y - 1971 ≤ 400 * D / 146097 ∧ 400 * D / 146097 ≤ y - 1969 := by
  simp only [dayFromYear] at h1 h2
  omega

/-- The executable year extraction returns the unique year whose day span
contains `D`. -/
theorem yearOfDay_eq (D y : Int) (h1 : dayFromYear y ≤ D) (h2 : D < dayFromYear (y + 1)) :
    yearOfDay D = y := by
  obtain ⟨hg1, hg2⟩ := guess_close D y h1 h2
  have hsucc : ∀ z : Int, dayFromYear z ≤ dayFromYear (z + 1) := by
    intro z
    rw [dayFromYear_succ]
    unfold leapDays
    split <;> omega
  unfold yearOfDay
  have hycase : 1970 + 400 * D / 146097 = y - 1 ∨ 1970 + 400 * D / 146097 = y ∨
      1970 + 400 * D / 146097 = y + 1 := by omega
  rcases hycase with hc | hc | hc <;> rw [hc]
  · have hy0 : dayFromYear (y - 1) ≤ dayFromYear y := by
      have := hsucc (y - 1)
      rw [show y - 1 + 1 = y by ring] at this
      exact this
    rw [show y - 1 + 1 = y by ring]
    rw [if_neg (by omega), if_neg (by omega)]
  · rw [if_neg (by omega), if_pos h2]
  · rw [if_pos h2]
    omega

theorem makeDay_valid (y m d : Int) (hm1 : 1 ≤ m) (hm2 : m ≤ 12) :
    makeDay y m d = dayFromYear y + monthOffset (isLeap y) (m - 1) + (d - 1) := by
  unfold makeDay
  have h0 : (m - 1) / 12 = 0 := by omega
  have h1 : (m - 1) % 12 = m - 1 := by omega
  rw [h0, h1, add_zero]

theorem monthOffset_bound (ℓ : Bool) (m d : Int) (hm1 : 1 ≤ m) (hm2 : m ≤ 12)
    (hd1 : 1 ≤ d) (hd2 : d ≤ monthLen ℓ m) :
    0 ≤ monthOffset ℓ (m - 1) + (d - 1) ∧
      monthOffset ℓ (m - 1) + (d - 1) ≤ 364 + leapDays ℓ := by
  interval_cases m <;> cases ℓ <;>
    (norm_num [monthLen] at hd2; norm_num [monthOffset, monthDaysBefore, leapDays]; omega)

theorem monthOfDoy_recover (ℓ : Bool) (m d : Int) (hm1 : 1 ≤ m) (hm2 : m ≤ 12)
    (hd1 : 1 ≤ d) (hd2 : d ≤ monthLen ℓ m) :
    monthOfDoy (leapDays ℓ) (monthOffset ℓ (m - 1) + (d - 1)) = m := by
  interval_cases m <;> cases ℓ <;>
    (norm_num [monthLen] at hd2; norm_num [monthOffset, monthDaysBefore, leapDays];
     rw [monthOfDoy]
     repeat (first | rw [if_neg (by omega)] | rw [if_pos (by omega)]))

theorem utc_hour_min (A hh mm : Int) (hh1 : 0 ≤ hh) (hh2 : hh ≤ 23)
    (hm1 : 0 ≤ mm) (hm2 : mm ≤ 59) :
    utcHour (A * 1440 + hh * 60 + mm) = hh ∧ utcMin (A * 1440 + hh * 60 + mm) = mm := by
  unfold utcHour utcMin
  constructor <;> omega

/-- For a valid calendar date with hour and minute in range, the UTC field
extractors recover all components of the instant built by `makeDay`. -/
theorem utcFields_makeDay (y m d hh mm : Int) (hm1 : 1 ≤ m) (hm2 : m ≤ 12)
    (hd1 : 1 ≤ d) (hd2 : d ≤ daysInMonth y m)
    (hh1 : 0 ≤ hh) (hh2 : hh ≤ 23) (hmm1 : 0 ≤ mm) (hmm2 : mm ≤ 59) :
    utcYear (makeDay y m d * 1440 + hh * 60 + mm) = y ∧
    utcMonth1 (makeDay y m d * 1440 + hh * 60 + mm) = m ∧
    utcDate (makeDay y m d * 1440 + hh * 60 + mm) = d := by
  have hd2' : d ≤ monthLen (isLeap y) m := hd2
  have hmk := makeDay_valid y m d hm1 hm2
  have hbound := monthOffset_bound (isLeap y) m d hm1 hm2 hd1 hd2'
  have hday : dayOfInstant (makeDay y m d * 1440 + hh * 60 + mm) = makeDay y m d := by
    unfold dayOfInstant
    omega
  have hyear : utcYear (makeDay y m d * 1440 + hh * 60 + mm) = y := by
    unfold utcYear
    rw [hday, hmk]
    apply yearOfDay_eq
    · omega
    · rw [dayFromYear_succ]
      omega
  have hdoy : utcDoy (makeDay y m d * 1440 + hh * 60 + mm) =
      monthOffset (isLeap y) (m - 1) + (d - 1) := by
    unfold utcDoy
    rw [hday, hyear, hmk]
    ring
  have hmonth : utcMonth1 (makeDay y m d * 1440 + hh * 60 + mm) = m := by
    unfold utcMonth1
    rw [hdoy, hyear]
    exact monthOfDoy_recover (isLeap y) m d hm1 hm2 hd1 hd2'
  refine ⟨hyear, hmonth, ?_⟩
  unfold utcDate
  rw [hdoy, hyear, hmonth]
  ring

/-! ## Lemmas: digits, padding and splitting -/

theorem decDigit_digitChar (n : Nat) : decDigit? (digitChar n) = some (n % 10) := by
  obtain ⟨k, hk, he⟩ : ∃ k, k < 10 ∧ n % 10 = k :=
    ⟨n % 10, Nat.mod_lt _ (by norm_num), rfl⟩
  unfold digitChar
  rw [he]
  interval_cases k <;> rfl

theorem decDigit_digitChar_lt (k : Nat) (h : k < 10) :
    decDigit? (digitChar k) = some k := by
  rw [decDigit_digitChar, Nat.mod_eq_of_lt h]

theorem digitChar_ne_colon_dash (n : Nat) :
    digitChar n ≠ ':' ∧ digitChar n ≠ '-' := by
  obtain ⟨k, hk, he⟩ : ∃ k, k < 10 ∧ n % 10 = k :=
    ⟨n % 10, Nat.mod_lt _ (by norm_num), rfl⟩
  unfold digitChar
  rw [he]
  interval_cases k <;> exact ⟨by decide, by decide⟩

theorem colon_not_mem_pad2 (n : Nat) : ':' ∉ pad2 n := by
  simp only [pad2, List.mem_cons, List.not_mem_nil, or_false]
  push_neg
  exact ⟨Ne.symm (digitChar_ne_colon_dash _).1, Ne.symm (digitChar_ne_colon_dash _).1⟩

theorem dash_not_mem_pad2 (n : Nat) : '-' ∉ pad2 n := by
  simp only [pad2, List.mem_cons, List.not_mem_nil, or_false]
  push_neg
  exact ⟨Ne.symm (digitChar_ne_colon_dash _).2, Ne.symm (digitChar_ne_colon_dash _).2⟩

theorem dash_not_mem_pad4 (n : Nat) : '-' ∉ pad4 n := by
  simp only [pad4, List.mem_cons, List.not_mem_nil, or_false]
  push_neg
  refine ⟨?_, ?_, ?_, ?_⟩ <;> exact Ne.symm (digitChar_ne_colon_dash _).2

theorem jsNumberNat_pad2 (n : Nat) (h : n < 100) : jsNumberNat (pad2 n) = some n := by
  have h1 : decDigit? (digitChar (n / 10)) = some (n / 10) :=
    decDigit_digitChar_lt _ (by omega)
  have h2 := decDigit_digitChar n
  simp only [jsNumberNat, pad2, digitsVal?, digitsValAux, h1, h2, Option.some_bind,
    List.cons_ne_nil, if_neg, reduceIte]
  congr 1
  omega

theorem jsNumberNat_pad4 (n : Nat) (h : n < 10000) : jsNumberNat (pad4 n) = some n := by
  have h1 : decDigit? (digitChar (n / 1000)) = some (n / 1000) :=
    decDigit_digitChar_lt _ (by omega)
  have h2 := decDigit_digitChar (n / 100)
  have h3 := decDigit_digitChar (n / 10)
  have h4 := decDigit_digitChar n
  simp only [jsNumberNat, pad4, digitsVal?, digitsValAux, h1, h2, h3, h4, Option.some_bind,
    List.cons_ne_nil, if_neg, reduceIte]
  congr 1
  omega

theorem splitOnChar_ne_nil (c : Char) (l : List Char) : splitOnChar c l ≠ [] := by
  cases l with
  | nil => simp [splitOnChar]
  | cons x xs =>
    simp only [splitOnChar]
    split
    · simp
    · split <;> simp

theorem splitOnChar_not_mem (c : Char) (l : List Char) (h : c ∉ l) :
    splitOnChar c l = [l] := by
  induction l with
  | nil => rfl
  | cons x xs ih =>
    have hx : ¬ x = c := fun he => h (he ▸ List.mem_cons_self x xs)
    have hxs : c ∉ xs := fun hm => h (List.mem_cons_of_mem _ hm)
    simp only [splitOnChar, if_neg hx, ih hxs]

theorem splitOnChar_append (c : Char) (a b : List Char) (h : c ∉ a) :
    splitOnChar c (a ++ c :: b) = a :: splitOnChar c b := by
  induction a with
  | nil => simp [splitOnChar]
  | cons x xs ih =>
    have hx : ¬ x = c := fun he => h (he ▸ List.mem_cons_self x xs)
    have hxs : c ∉ xs := fun hm => h (List.mem_cons_of_mem _ hm)
    simp only [List.cons_append, splitOnChar, if_neg hx, List.append_eq, ih hxs]

theorem splitOnChar_head_takeWhile (c : Char) (l : List Char) :
    ∃ rest, splitOnChar c l = (l.takeWhile fun x => x != c) :: rest := by
  induction l with
  | nil => exact ⟨[], rfl⟩
  | cons x xs ih =>
    by_cases hx : x = c
    · subst hx
      refine ⟨splitOnChar x xs, ?_⟩
      simp [splitOnChar, List.takeWhile_cons]
    · obtain ⟨rest, hr⟩ := ih
      refine ⟨rest, ?_⟩
      have hb : (x != c) = true := by simpa [bne_iff_ne] using hx
      simp only [splitOnChar, if_neg hx, hr, List.takeWhile_cons, hb, if_true]

theorem splitOnChar_of_mem (c : Char) (l : List Char) (h : c ∈ l) :
    splitOnChar c l =
      (l.takeWhile fun x => x != c) ::
        splitOnChar c ((l.dropWhile fun x => x != c).tail) := by
  induction l with
  | nil => cases h
  | cons x xs ih =>
    by_cases hx : x = c
    · subst hx
      simp [splitOnChar, List.takeWhile_cons, List.dropWhile_cons]
    · have hxs : c ∈ xs := by
        rcases List.mem_cons.mp h with he | hm
        · exact absurd he.symm hx
        · exact hm
      have hb : (x != c) = true := by simpa [bne_iff_ne] using hx
      simp only [splitOnChar, if_neg hx, ih hxs, List.takeWhile_cons, List.dropWhile_cons, hb,
        if_true]

/-! ## hr-dashboard.tsx: attendance time conversion -/

/-- Result of the edit modal's timeToISO: the JavaScript function returns
null for a falsy time argument, returns an ISO string, or throws a RangeError
when a NaN component makes the constructed Date invalid. -/
inductive TimeISOResult where
  | nullValue : TimeISOResult
  | thrown : TimeISOResult
  | iso : List Char → TimeISOResult
  deriving DecidableEq

/-- Destructuring `const [a, b] = s.split(c).map(Number)`: `none` when either
of the first two components is NaN (a missing component is
`Number(undefined)`, NaN). -/
def nums2 (c : Char) (s : List Char) : Option (Nat × Nat) :=
  match splitOnChar c s with
  | a :: b :: _ =>
    match jsNumberNat a, jsNumberNat b with
    | some x, some y => some (x, y)
    | _, _ => none
  | _ => none

/-- Destructuring `const [a, b, c] = s.split(sep).map(Number)`. -/
def nums3 (c : Char) (s : List Char) : Option (Nat × Nat × Nat) :=
  match splitOnChar c s with
  | a :: b :: e :: _ =>
    match jsNumberNat a, jsNumberNat b, jsNumberNat e with
    | some x, some y, some z => some (x, y, z)
    | _, _, _ => none
  | _ => none

/-- timeToISO from the edit modal's handleSave (hr-dashboard.tsx), with the
record's date string captured in scope.  ECMAScript's TimeClip is omitted:
every instant reachable from four-digit years is far inside the clip range. -/
def timeToISO (recordDate time : List Char) : TimeISOResult :=
  if time = [] then .nullValue
  else
    match nums2 ':' time, nums3 '-' recordDate with
    | some (hh, mm), some (y, m, d) =>
      .iso (isoOfMinutes (jsDateUTC y m d hh mm))
    | _, _ => .thrown

/-- getSubmissionDateTime from the main check-in/check-out form
(hr-dashboard.tsx): the time value of the constructed Date; `none` models an
Invalid Date arising from NaN components. -/
def getSubmissionDateTime (dateString timeString : List Char) : Option Int :=
  match nums3 '-' dateString, nums2 ':' timeString with
  | some (y, m, d), some (hh, mm) => some (jsDateUTC y m d hh mm)
  | _, _ => none

/-- extractTimeForInput from the edit modal (hr-dashboard.tsx).  `parse`
models `new Date(isoString)`: the time value, or `none` for an Invalid
Date. -/
def extractTimeForInput (parse : List Char → Option Int) (isoString : List Char) :
    List Char :=
  if isoString = [] then []
  else
    match parse isoString with
    | some t => pad2 (utcHour t).toNat ++ (':' :: pad2 (utcMin t).toNat)
    | none =>
      if 2 ≤ (splitOnChar ':' isoString).length then
        (splitOnChar ':' isoString).getD 0 [] ++
          (':' :: (splitOnChar ':' isoString).getD 1 [])
      else []

/-- The canonical "HH:MM" string of an hour and a minute. -/
def timeStr (hh mm : Nat) : List Char := pad2 hh ++ (':' :: pad2 mm)

/-- The canonical "YYYY-MM-DD" string of a date. -/
def dateStr (y m d : Nat) : List Char :=
  pad4 y ++ ('-' :: (pad2 m ++ ('-' :: pad2 d)))

/-- The raw substring fallback the spec describes for non-parseable decode
inputs: the text before the first ':' and the text between the first and
second ':' when the string contains a ':', the empty string otherwise. -/
def rawFallback (s : List Char) : List Char :=
  if ':' ∈ s then
    (s.takeWhile fun x => x != ':') ++
      (':' :: ((s.dropWhile fun x => x != ':').tail.takeWhile fun x => x != ':'))
  else []

theorem nums2_timeStr (hh mm : Nat) (h1 : hh < 100) (h2 : mm < 100) :
    nums2 ':' (timeStr hh mm) = some (hh, mm) := by
  unfold nums2 timeStr
  rw [splitOnChar_append _ _ _ (colon_not_mem_pad2 hh),
    splitOnChar_not_mem _ _ (colon_not_mem_pad2 mm)]
  simp [jsNumberNat_pad2 hh h1, jsNumberNat_pad2 mm h2]

theorem nums3_dateStr (y m d : Nat) (hy : y < 10000) (hm : m < 100) (hd : d < 100) :
    nums3 '-' (dateStr y m d) = some (y, m, d) := by
  unfold nums3 dateStr
  rw [splitOnChar_append _ _ _ (dash_not_mem_pad4 y),
    splitOnChar_append _ _ _ (dash_not_mem_pad2 m),
    splitOnChar_not_mem _ _ (dash_not_mem_pad2 d)]
  simp [jsNumberNat_pad4 y hy, jsNumberNat_pad2 m hm, jsNumberNat_pad2 d hd]

theorem timeStr_ne_nil (hh mm : Nat) : timeStr hh mm ≠ [] := by
  simp [timeStr, pad2]

theorem isoOfMinutes_ne_nil (t : Int) : isoOfMinutes t ≠ [] := by
  simp [isoOfMinutes, pad4]

theorem timeToISO_valid (hh mm y m d : Nat) (hhh : hh < 100) (hmm : mm < 100)
    (hy : y < 10000) (hm : m < 100) (hd : d < 100) :
    timeToISO (dateStr y m d) (timeStr hh mm) =
      .iso (isoOfMinutes (jsDateUTC y m d hh mm)) := by
  unfold timeToISO
  rw [if_neg (timeStr_ne_nil hh mm), nums2_timeStr hh mm hhh hmm,
    nums3_dateStr y m d hy hm hd]

theorem getSubmissionDateTime_valid (hh mm y m d : Nat) (hhh : hh < 100)
    (hmm : mm < 100) (hy : y < 10000) (hm : m < 100) (hd : d < 100) :
    getSubmissionDateTime (dateStr y m d) (timeStr hh mm) =
      some (jsDateUTC y m d hh mm) := by
  unfold getSubmissionDateTime
  rw [nums2_timeStr hh mm hhh hmm, nums3_dateStr y m d hy hm hd]

/-- C1: for every valid "HH:MM" (00..23 / 00..59) and every valid
"YYYY-MM-DD" date, encoding with the edit modal's timeToISO (which builds the
instant via Date.UTC) and then decoding the resulting ISO string with
extractTimeForInput (which reads getUTCHours/getUTCMinutes and zero-pads)
yields the original "HH:MM" string.  `parse` models the environment's
`new Date(isoString)`; the hypothesis `hparse` is the ECMAScript guarantee
that parsing a toISOString rendering returns the same time value. -/
theorem claim_C1 (hh mm y m d : Nat) (hhh : hh ≤ 23) (hmm : mm ≤ 59)
    (hy : y ≤ 9999) (hm1 : 1 ≤ m) (hm2 : m ≤ 12) (hd1 : 1 ≤ d) (hd2 : d ≤ 31)
    (parse : List Char → Option Int)
    (hparse : parse (isoOfMinutes (jsDateUTC y m d hh mm)) =
      some (jsDateUTC y m d hh mm)) :
    timeToISO (dateStr y m d) (timeStr hh mm) =
      .iso (isoOfMinutes (jsDateUTC y m d hh mm)) ∧
    extractTimeForInput parse (isoOfMinutes (jsDateUTC y m d hh mm)) =
      timeStr hh mm := by
  refine ⟨timeToISO_valid hh mm y m d (by omega) (by omega) (by omega) (by omega)
    (by omega), ?_⟩
  unfold extractTimeForInput
  rw [if_neg (isoOfMinutes_ne_nil _), hparse]
  obtain ⟨hu1, hu2⟩ := utc_hour_min (makeDay (fixupYear (y : Int)) m d) hh mm
    (by omega) (by omega) (by omega) (by omega)
  show pad2 (utcHour (jsDateUTC y m d hh mm)).toNat ++
      (':' :: pad2 (utcMin (jsDateUTC y m d hh mm)).toNat) = timeStr hh mm
  unfold jsDateUTC
  rw [hu1, hu2, Int.toNat_ofNat, Int.toNat_ofNat]
  rfl

/-- C1 witness: a concrete instantiation of `claim_C1` at 10:30 on
2023-10-27, with a parse function defined to invert the produced string. -/
theorem claim_C1_witness :
    timeToISO (dateStr 2023 10 27) (timeStr 10 30) =
      .iso (isoOfMinutes (jsDateUTC 2023 10 27 10 30)) ∧
    extractTimeForInput
      (fun s => if s = isoOfMinutes (jsDateUTC 2023 10 27 10 30) then
        some (jsDateUTC 2023 10 27 10 30) else none)
      (isoOfMinutes (jsDateUTC 2023 10 27 10 30)) = timeStr 10 30 :=
  claim_C1 10 30 2023 10 27 (by norm_num) (by norm_num) (by norm_num)
    (by norm_num) (by norm_num) (by norm_num) (by norm_num) _ (if_pos rfl)

/-- C2 as stated is false: `Date.UTC` interprets year arguments 0..99 as
1900..1999, so the valid date string "0050-01-15" is encoded as an instant
whose UTC year is 1950, not 50.  The UTC hour/minute equality does hold. -/
theorem claim_C2_counterexample :
    getSubmissionDateTime (dateStr 50 1 15) (timeStr 10 0) =
      some (jsDateUTC 50 1 15 10 0) ∧
    utcYear (jsDateUTC 50 1 15 10 0) = 1950 ∧
    ¬ utcYear (jsDateUTC 50 1 15 10 0) = 50 := by
  refine ⟨getSubmissionDateTime_valid 10 0 50 1 15 (by norm_num) (by norm_num)
    (by norm_num) (by norm_num) (by norm_num), ?_, ?_⟩ <;> decide

/-- C2 amended: for every valid time and date input, both encoders
(getSubmissionDateTime and the edit modal's timeToISO) produce the `Date.UTC`
instant, whose UTC hour and minute equal the inputs; and whenever the year
written in the date string is at least 100 (so the `Date.UTC` two-digit-year
rule does not rewrite it) and the day is valid for the month, the instant's
UTC year, month and day equal the input date's fields.  No timezone enters
any of these definitions. -/
theorem claim_C2_amended (hh mm y m d : Nat) (hhh : hh ≤ 23) (hmm : mm ≤ 59)
    (hy : y ≤ 9999) (hm1 : 1 ≤ m) (hm2 : m ≤ 12) (hd1 : 1 ≤ d) (hd2 : d ≤ 31) :
    (getSubmissionDateTime (dateStr y m d) (timeStr hh mm) =
        some (jsDateUTC y m d hh mm) ∧
      timeToISO (dateStr y m d) (timeStr hh mm) =
        .iso (isoOfMinutes (jsDateUTC y m d hh mm)) ∧
      utcHour (jsDateUTC y m d hh mm) = hh ∧
      utcMin (jsDateUTC y m d hh mm) = mm) ∧
    (100 ≤ y → (d : Int) ≤ daysInMonth y m →
      utcYear (jsDateUTC y m d hh mm) = y ∧
      utcMonth1 (jsDateUTC y m d hh mm) = m ∧
      utcDate (jsDateUTC y m d hh mm) = d) := by
  constructor
  · refine ⟨getSubmissionDateTime_valid hh mm y m d (by omega) (by omega) (by omega)
      (by omega) (by omega),
      timeToISO_valid hh mm y m d (by omega) (by omega) (by omega) (by omega)
        (by omega), ?_, ?_⟩ <;>
    · obtain ⟨hu1, hu2⟩ := utc_hour_min (makeDay (fixupYear (y : Int)) m d) hh mm
        (by omega) (by omega) (by omega) (by omega)
      unfold jsDateUTC
      omega
  · intro h100 hdm
    have hfix : fixupYear (y : Int) = y := by
      unfold fixupYear
      rw [if_neg (by omega)]
    have hres := utcFields_makeDay y m d hh mm (by omega) (by omega) (by omega)
      hdm (by omega) (by omega) (by omega) (by omega)
    unfold jsDateUTC
    rw [hfix]
    exact hres

/-- C2 amended witness: concrete instantiation at 2023-10-27 09:05. -/
theorem claim_C2_amended_witness :
    (getSubmissionDateTime (dateStr 2023 10 27) (timeStr 9 5) =
        some (jsDateUTC 2023 10 27 9 5) ∧
      timeToISO (dateStr 2023 10 27) (timeStr 9 5) =
        .iso (isoOfMinutes (jsDateUTC 2023 10 27 9 5)) ∧
      utcHour (jsDateUTC 2023 10 27 9 5) = 9 ∧
      utcMin (jsDateUTC 2023 10 27 9 5) = 5) ∧
    (utcYear (jsDateUTC 2023 10 27 9 5) = 2023 ∧
      utcMonth1 (jsDateUTC 2023 10 27 9 5) = 10 ∧
      utcDate (jsDateUTC 2023 10 27 9 5) = 27) :=
  ⟨(claim_C2_amended 9 5 2023 10 27 (by norm_num) (by norm_num) (by norm_num)
      (by norm_num) (by norm_num) (by norm_num) (by norm_num)).1,
    (claim_C2_amended 9 5 2023 10 27 (by norm_num) (by norm_num) (by norm_num)
      (by norm_num) (by norm_num) (by norm_num) (by norm_num)).2
      (by norm_num) (by decide)⟩

/-- C6: the attendance time conversion edge cases.  An empty (falsy) time
makes timeToISO return null; and when the decode input does not parse as a
date (`parse s = none`), extractTimeForInput falls back to a raw substring
parse: the text before the first ':' and the text between the first and
second ':' when the string contains a ':', the empty string otherwise. -/
theorem claim_C6 :
    (∀ recordDate : List Char, timeToISO recordDate [] = .nullValue) ∧
    ∀ (parse : List Char → Option Int) (s : List Char), parse s = none →
      extractTimeForInput parse s = rawFallback s := by
  constructor
  · intro rd
    rfl
  · intro parse s hp
    by_cases hs : s = []
    · subst hs
      simp [extractTimeForInput, rawFallback]
    · simp only [extractTimeForInput, rawFallback, if_neg hs, hp]
      by_cases hmem : ':' ∈ s
      · rw [splitOnChar_of_mem _ _ hmem]
        obtain ⟨rest, hr⟩ :=
          splitOnChar_head_takeWhile ':' ((s.dropWhile fun x => x != ':').tail)
        rw [hr, if_pos (by simp [List.length_cons]), if_pos hmem]
        simp
      · rw [splitOnChar_not_mem _ _ hmem, if_neg (by simp), if_neg hmem]

/-- C6 witness: the empty time on a concrete record date, and a concrete
non-parseable string "ab:cd:e" with a parse function that always fails. -/
theorem claim_C6_witness :
    timeToISO ("2023-10-27".data) [] = .nullValue ∧
    extractTimeForInput (fun _ => none) ("ab:cd:e".data) =
      rawFallback ("ab:cd:e".data) :=
  ⟨claim_C6.1 _, claim_C6.2 _ _ rfl⟩

/-! ## hr-dashboard.tsx: attendance records and register filtering -/

/-- An attendance record as the HR dashboard consumes it (fields the claims
inspect; the remaining display-only fields do not influence any claim). -/
structure Attendance where
  id : Int
  staff_id : Int
  staff_name : Option (List Char)
  staff_role : Option (List Char)
  date : Option (List Char)
  status : Option (List Char)
  checkin_time : Option (List Char)
  checkout_time : Option (List Char)
  deriving DecidableEq

/-- parseInt on the digit strings the staff filter produces; all other
strings give NaN. -/
def parseIntStrict (s : List Char) : Option Int :=
  (digitsVal? s).map fun n => (n : Int)

/-- The string "all" (the staff filter's neutral value). -/
def strAll : List Char := "all".data

/-- Truthiness of `r.date?.startsWith(p)`: a null date is falsy. -/
def optStartsWith (d : Option (List Char)) (p : List Char) : Bool :=
  match d with
  | none => false
  | some s => p.isPrefixOf s

/-- The staff-filter stage of getComprehensiveAttendance: a filter is active
only when the select value is neither "all" nor empty and parses to a truthy
(non-zero, non-NaN) number. -/
def staffFiltered (records : List Attendance) (filterStaffId : List Char) :
    List Attendance :=
  match (if filterStaffId ≠ strAll ∧ filterStaffId ≠ [] then
      parseIntStrict filterStaffId else none) with
  | some n =>
    if n ≠ 0 then records.filter fun r => decide (r.staff_id = n) else records
  | none => records

/-- The same condition as a predicate, for stating C9. -/
def staffPass (filterStaffId : List Char) (r : Attendance) : Bool :=
  match (if filterStaffId ≠ strAll ∧ filterStaffId ≠ [] then
      parseIntStrict filterStaffId else none) with
  | some n => if n ≠ 0 then decide (r.staff_id = n) else true
  | none => true

/-- getComprehensiveAttendance (hr-dashboard.tsx): staff filter, then month
filter (startsWith) with priority over the specific-date filter (strict
equality). -/
def getComprehensiveAttendance (records : List Attendance)
    (filterStaffId filterMonth filterDate : List Char) : List Attendance :=
  if filterMonth ≠ [] then
    (staffFiltered records filterStaffId).filter fun r =>
      optStartsWith r.date filterMonth
  else if filterDate ≠ [] then
    (staffFiltered records filterStaffId).filter fun r =>
      decide (r.date = some filterDate)
  else staffFiltered records filterStaffId

theorem staffFiltered_eq (records : List Attendance) (sf : List Char) :
    staffFiltered records sf = records.filter (staffPass sf) := by
  unfold staffFiltered staffPass
  cases h : (if sf ≠ strAll ∧ sf ≠ [] then parseIntStrict sf else none) with
  | none => simp
  | some n =>
    by_cases hn : n = 0
    · simp [hn]
    · simp [hn]

/-- C9: in getComprehensiveAttendance the month filter takes precedence over
the specific-date filter.  With a non-empty month the output is exactly the
records passing the staff filter whose date starts with the month, and the
date filter is ignored entirely; with an empty month and a non-empty date,
the output is exactly the records passing the staff filter whose date equals
it.  The staff filter is conjunctive in both cases. -/
theorem claim_C9 (records : List Attendance) (sf fm fd : List Char) :
    (fm ≠ [] →
      (getComprehensiveAttendance records sf fm fd =
        records.filter fun r => optStartsWith r.date fm && staffPass sf r) ∧
      ∀ fd' : List Char, getComprehensiveAttendance records sf fm fd' =
        getComprehensiveAttendance records sf fm fd) ∧
    (fm = [] → fd ≠ [] →
      getComprehensiveAttendance records sf fm fd =
        records.filter fun r => decide (r.date = some fd) && staffPass sf r) := by
  constructor
  · intro hfm
    constructor
    · unfold getComprehensiveAttendance
      rw [if_pos hfm, staffFiltered_eq, List.filter_filter]
    · intro fd'
      unfold getComprehensiveAttendance
      rw [if_pos hfm, if_pos hfm]
  · intro hfm hfd
    unfold getComprehensiveAttendance
    rw [if_neg (by simp [hfm]), if_pos hfd, staffFiltered_eq, List.filter_filter]

/-- A concrete attendance record for witnesses. -/
def sampleAtt1 : Attendance :=
  ⟨1, 7, some "Alice".data, none, some "2024-05-01".data, some "present".data,
    none, none⟩

/-- A second concrete attendance record for witnesses. -/
def sampleAtt2 : Attendance :=
  ⟨2, 8, some "Bob".data, none, some "2024-06-02".data, some "late".data,
    none, none⟩

/-- C9 witness: both filter modes exercised on concrete records. -/
theorem claim_C9_witness :
    (getComprehensiveAttendance [sampleAtt1, sampleAtt2] ("7".data)
        ("2024-05".data) ("2024-06-02".data) =
      [sampleAtt1, sampleAtt2].filter fun r =>
        optStartsWith r.date ("2024-05".data) && staffPass ("7".data) r) ∧
    getComprehensiveAttendance [sampleAtt1, sampleAtt2] ("all".data) []
        ("2024-06-02".data) =
      [sampleAtt1, sampleAtt2].filter fun r =>
        decide (r.date = some ("2024-06-02".data)) && staffPass ("all".data) r :=
  ⟨((claim_C9 [sampleAtt1, sampleAtt2] ("7".data) ("2024-05".data)
      ("2024-06-02".data)).1 (by decide)).1,
    (claim_C9 [sampleAtt1, sampleAtt2] ("all".data) [] ("2024-06-02".data)).2
      rfl (by decide)⟩

/-! ## accounts-dashboard.tsx / expenses-tab-content.tsx: the report register -/

/-- A daily sales report as the register consumes it.  Only the id, date and
category fields influence the filtering and sorting claims; the numeric
fields of the API interface play no role there. -/
structure DailySalesReport where
  id : Int
  date : Option (List Char)
  category : Option (List Char)
  deriving DecidableEq

/-- JavaScript `new Date(s).getTime()` on a date-only string: a strict
"YYYY-MM-DD" string with an in-range month and day parses as UTC midnight of
that day; anything else is an Invalid Date (`none`, modelling NaN). -/
def parseDateOnly (s : List Char) : Option Int :=
  match s with
  | [y1, y2, y3, y4, c1, m1, m2, c2, d1, d2] =>
    if c1 = '-' ∧ c2 = '-' then
      match digitsVal? [y1, y2, y3, y4], digitsVal? [m1, m2], digitsVal? [d1, d2] with
      | some y, some mo, some da =>
        if 1 ≤ mo ∧ mo ≤ 12 ∧ 1 ≤ da ∧ (da : Int) ≤ daysInMonth y mo then
          some (makeDay y mo da * 1440)
        else none
      | _, _, _ => none
    else none
  | _ => none

/-- The register's sort key: `r.date ? new Date(r.date).getTime() : 0`.
`none` models a NaN key from a non-parseable date string. -/
def reportDateKey (r : DailySalesReport) : Option Int :=
  match r.date with
  | none => some 0
  | some s => if s = [] then some 0 else parseDateOnly s

/-- Numeric key with NaN collapsed to 0.  The model's comparator agrees with
the JavaScript comparator whenever every key is a number, which is the
hypothesis of claim C3 (with a NaN key the comparator is inconsistent and
Array.prototype.sort leaves the order implementation-defined). -/
def reportKeyNum (r : DailySalesReport) : Int := (reportDateKey r).getD 0

/-- The comparator `(a, b) => dateB - dateA` as a sort-order test. -/
def reportLe (a b : DailySalesReport) : Bool :=
  decide (reportKeyNum b ≤ reportKeyNum a)

/-- The date-filter stage: `r.date && r.date.startsWith(dateFilter)` (a null
or empty date string is falsy). -/
def reportDatePass (r : DailySalesReport) (df : List Char) : Bool :=
  match r.date with
  | some s => decide (s ≠ []) && df.isPrefixOf s
  | none => false

/-- The date-filter stage of filteredReports (identical in
accounts-dashboard.tsx and expenses-tab-content.tsx). -/
def dateFiltered (reports : List DailySalesReport) (dateFilter : List Char) :
    List DailySalesReport :=
  if dateFilter ≠ [] then reports.filter fun r => reportDatePass r dateFilter
  else reports

/-- The category-filter stage: `r.category === categoryFilter`. -/
def catFiltered (l : List DailySalesReport) (categoryFilter : List Char) :
    List DailySalesReport :=
  if categoryFilter ≠ [] then
    l.filter fun r => decide (r.category = some categoryFilter)
  else l

/-- filteredReports (identical in accounts-dashboard.tsx and
expenses-tab-content.tsx): optional date filter, optional category filter,
then a stable sort by date descending.  `List.mergeSort` is the unique
stable sort, which is what ES2019+ `Array.prototype.sort` performs under a
consistent comparator. -/
def filteredReports (reports : List DailySalesReport)
    (dateFilter categoryFilter : List Char) : List DailySalesReport :=
  (catFiltered (dateFiltered reports dateFilter) categoryFilter).mergeSort
    reportLe

theorem reportLe_trans (a b c : DailySalesReport) (h1 : reportLe a b)
    (h2 : reportLe b c) : reportLe a c = true := by
  simp only [reportLe, decide_eq_true_eq] at h1 h2 ⊢
  omega

theorem reportLe_total (a b : DailySalesReport) :
    (reportLe a b || reportLe b a) = true := by
  simp only [reportLe, Bool.or_eq_true, decide_eq_true_eq]
  omega

/-- C3: for every report list and every filter state, the register's derived
list is ordered by date descending: adjacent entries have non-increasing
keys, where the key of a record is the parsed UTC instant of its date and 0
for a null or empty date.  The hypothesis restricts to inputs on which the
JavaScript comparator is consistent: every date present parses (or is null);
with a non-parseable date string the comparator returns NaN and ECMAScript
leaves the sort order implementation-defined. -/
theorem claim_C3 (reports : List DailySalesReport) (df cf : List Char)
    (hvalid : ∀ r ∈ reports, (reportDateKey r).isSome) :
    List.Chain' (fun a b => reportKeyNum b ≤ reportKeyNum a)
      (filteredReports reports df cf) := by
  apply List.Pairwise.chain'
  have hp := List.sorted_mergeSort reportLe_trans reportLe_total
    (catFiltered (dateFiltered reports df) cf)
  unfold filteredReports
  refine hp.imp ?_
  intro a b hab
  simpa [reportLe] using hab

/-- C4: with a non-empty category filter, every record the register shows has
exactly the filtered category (whatever the date filter is), and with the
date filter at its default empty value the output is a permutation of
precisely the input records whose category equals the filter — none omitted,
none added. -/
theorem claim_C4 (reports : List DailySalesReport) (cf : List Char)
    (hcf : cf ≠ []) :
    (∀ df : List Char, ∀ r ∈ filteredReports reports df cf,
      r.category = some cf) ∧
    (filteredReports reports [] cf).Perm
      (reports.filter fun r => decide (r.category = some cf)) := by
  constructor
  · intro df r hr
    unfold filteredReports catFiltered at hr
    rw [if_pos hcf] at hr
    rw [(List.mergeSort_perm _ _).mem_iff] at hr
    exact of_decide_eq_true (List.mem_filter.mp hr).2
  · unfold filteredReports catFiltered dateFiltered
    rw [if_pos hcf, if_neg (by simp)]
    exact List.mergeSort_perm _ _

/-- A concrete report for witnesses. -/
def sampleRep1 : DailySalesReport :=
  ⟨1, some "2024-05-01".data, some "amaze_ads".data⟩

/-- A second concrete report (null date) for witnesses. -/
def sampleRep2 : DailySalesReport :=
  ⟨2, none, some "crystal_wall_art".data⟩

/-- C3 witness: concrete report list with a parseable and a null date. -/
theorem claim_C3_witness :
    List.Chain' (fun a b => reportKeyNum b ≤ reportKeyNum a)
      (filteredReports [sampleRep1, sampleRep2] [] []) :=
  claim_C3 [sampleRep1, sampleRep2] [] [] (by decide)

/-- C4 witness: concrete category filter on concrete reports. -/
theorem claim_C4_witness :
    (∀ df : List Char, ∀ r ∈ filteredReports [sampleRep1, sampleRep2] df
        ("amaze_ads".data), r.category = some ("amaze_ads".data)) ∧
    (filteredReports [sampleRep1, sampleRep2] [] ("amaze_ads".data)).Perm
      ([sampleRep1, sampleRep2].filter fun r =>
        decide (r.category = some ("amaze_ads".data))) :=
  claim_C4 [sampleRep1, sampleRep2] ("amaze_ads".data) (by decide)

/-! ## accounts-dashboard.tsx: the daily report upload form -/

/-- The form state of DailyReportUpload: every field is the string value of
an input control. -/
structure ReportForm where
  date : List Char
  total_sales_order : List Char
  total_sale_order_amount : List Char
  sale_order_collection : List Char
  sale_order_balance_amount : List Char
  total_day_collection : List Char
  total_amount_on_cash : List Char
  total_amount_on_ac : List Char
  ibo_420 : List Char
  decor_uj : List Char
  anil_fed : List Char
  remya_fed : List Char
  kdb_186 : List Char
  kgb_070 : List Char
  kiran_uj : List Char
  cheque : List Char
  expense : List Char
  category : List Char
  deriving DecidableEq

/-- JavaScript parseFloat restricted to the canonical decimal forms a number
input produces: an optional minus sign, a non-empty digit integer part and an
optional non-empty digit fraction part.  Exponent notation and strings with
leading or trailing junk are mapped to NaN (`none`).  Number values are
idealised as exact rationals. -/
def parseUDec (s : List Char) : Option ℚ :=
  match splitOnChar '.' s with
  | [a] => (digitsVal? a).map fun n => (n : ℚ)
  | [a, b] =>
    match digitsVal? a, digitsVal? b with
    | some n, some f => some ((n : ℚ) + (f : ℚ) / ((10 : ℚ) ^ b.length))
    | _, _ => none
  | _ => none

/-- parseFloat with an optional leading minus sign. -/
def parseDec (s : List Char) : Option ℚ :=
  match s with
  | '-' :: rest => (parseUDec rest).map Neg.neg
  | _ => parseUDec s

/-- `parseFloat(x) || 0`: NaN (and 0 itself) become 0. -/
def parseDecOr0 (s : List Char) : ℚ := (parseDec s).getD 0

/-- An injective rendering of a rational, standing in for JavaScript
`String(number)` when the effect writes the recomputed totals back into the
form state.  The C8 invariant is insensitive to the concrete rendering. -/
def qToStr (q : ℚ) : List Char :=
  (if q < 0 then ['-'] else []) ++ Nat.toDigits 10 q.num.natAbs ++
    '/' :: Nat.toDigits 10 q.den

/-- Sum of the eight parsed account fields (ibo_420, decor_uj, anil_fed,
remya_fed, kdb_186, kgb_070, kiran_uj, cheque). -/
def sumAC (f : ReportForm) : ℚ :=
  parseDecOr0 f.ibo_420 + parseDecOr0 f.decor_uj + parseDecOr0 f.anil_fed +
    parseDecOr0 f.remya_fed + parseDecOr0 f.kdb_186 + parseDecOr0 f.kgb_070 +
    parseDecOr0 f.kiran_uj + parseDecOr0 f.cheque

/-- sale_order_collection + sale_order_balance_amount, parsed. -/
def sumDay (f : ReportForm) : ℚ :=
  parseDecOr0 f.sale_order_collection + parseDecOr0 f.sale_order_balance_amount

/-- The auto-calculation useEffect of DailyReportUpload: recomputes the two
derived fields from their sources, storing the rendered sum when it is
positive and the empty string otherwise.  React runs it after every update of
any source field. -/
def recomputeTotals (f : ReportForm) : ReportForm :=
  { f with
    total_day_collection := if sumDay f > 0 then qToStr (sumDay f) else []
    total_amount_on_ac := if sumAC f > 0 then qToStr (sumAC f) else [] }

/-- The C8 invariant on a form state. -/
def totalsInvariant (f : ReportForm) : Prop :=
  f.total_amount_on_ac = (if sumAC f > 0 then qToStr (sumAC f) else []) ∧
  f.total_day_collection = (if sumDay f > 0 then qToStr (sumDay f) else [])

/-- Directly overwriting the two derived fields (the only conceivable direct
edit; the rendered inputs are read-only and have no change handler). -/
def setDerivedFields (f : ReportForm) (v w : List Char) : ReportForm :=
  { f with total_amount_on_ac := v, total_day_collection := w }

/-- C8: after the auto-calculation effect runs — that is, after every form
state update — total_amount_on_ac is the rendering of the sum of the eight
parsed account fields when that sum is positive and empty otherwise, and
total_day_collection likewise for collection + balance; and any direct edit
of the two derived fields is never retained, because the effect's output does
not depend on them. -/
theorem claim_C8 :
    (∀ f : ReportForm, totalsInvariant (recomputeTotals f)) ∧
    (∀ (f : ReportForm) (v w : List Char),
      recomputeTotals (setDerivedFields f v w) = recomputeTotals f) := by
  constructor
  · intro f
    constructor <;> rfl
  · intro f v w
    rfl

/-- The payload handleSubmit builds: `parseFloat(x) || null` maps NaN and 0
to null. -/
def parseDecOrNull (s : List Char) : Option ℚ :=
  match parseDec s with
  | some q => if q = 0 then none else some q
  | none => none

/-- `formData.total_sales_order ? parseInt(...) : null` for the integer count
field (parseInt on the digit strings a number input produces). -/
def parseIntOrNull (s : List Char) : Option Int :=
  if s = [] then none else parseIntStrict s

/-- The REST payload of a create/update submission. -/
structure ReportPayload where
  date : List Char
  total_sales_order : Option Int
  total_sale_order_amount : Option ℚ
  sale_order_collection : Option ℚ
  sale_order_balance_amount : Option ℚ
  total_day_collection : Option ℚ
  total_amount_on_cash : Option ℚ
  total_amount_on_ac : Option ℚ
  ibo_420 : Option ℚ
  decor_uj : Option ℚ
  anil_fed : Option ℚ
  remya_fed : Option ℚ
  kdb_186 : Option ℚ
  kgb_070 : Option ℚ
  kiran_uj : Option ℚ
  cheque : Option ℚ
  expense : Option ℚ
  category : Option (List Char)
  deriving DecidableEq

/-- The payload construction inside handleSubmit. -/
def payloadOfForm (f : ReportForm) : ReportPayload where
  date := f.date
  total_sales_order := parseIntOrNull f.total_sales_order
  total_sale_order_amount := parseDecOrNull f.total_sale_order_amount
  sale_order_collection := parseDecOrNull f.sale_order_collection
  sale_order_balance_amount := parseDecOrNull f.sale_order_balance_amount
  total_day_collection := parseDecOrNull f.total_day_collection
  total_amount_on_cash := parseDecOrNull f.total_amount_on_cash
  total_amount_on_ac := parseDecOrNull f.total_amount_on_ac
  ibo_420 := parseDecOrNull f.ibo_420
  decor_uj := parseDecOrNull f.decor_uj
  anil_fed := parseDecOrNull f.anil_fed
  remya_fed := parseDecOrNull f.remya_fed
  kdb_186 := parseDecOrNull f.kdb_186
  kgb_070 := parseDecOrNull f.kgb_070
  kiran_uj := parseDecOrNull f.kiran_uj
  cheque := parseDecOrNull f.cheque
  expense := parseDecOrNull f.expense
  category := if f.category = [] then none else some f.category

/-- What a submission does: nothing (validation returned early), or exactly
one client call. -/
inductive SubmitAction where
  | blocked : SubmitAction
  | createCall : ReportPayload → SubmitAction
  | updateCall : Int → ReportPayload → SubmitAction
  deriving DecidableEq

/-- handleSubmit of DailyReportUpload: date validation, then category
validation, each returning before any network call; otherwise one
create/update call depending on edit mode. -/
def handleSubmit (f : ReportForm) (reportToEdit : Option Int) : SubmitAction :=
  if f.date = [] then .blocked
  else if f.category = [] then .blocked
  else
    match reportToEdit with
    | some rid => .updateCall rid (payloadOfForm f)
    | none => .createCall (payloadOfForm f)

/-- C5: a submission with an empty category (or empty date) returns before
any create/update client call is issued; the client function is invoked
exactly when both date and category are non-empty. -/
theorem claim_C5 (f : ReportForm) (reportToEdit : Option Int) :
    ((f.category = [] ∨ f.date = []) → handleSubmit f reportToEdit = .blocked) ∧
    (f.date ≠ [] → f.category ≠ [] →
      handleSubmit f reportToEdit =
        (match reportToEdit with
          | some rid => .updateCall rid (payloadOfForm f)
          | none => .createCall (payloadOfForm f))) ∧
    (handleSubmit f reportToEdit ≠ .blocked ↔ f.date ≠ [] ∧ f.category ≠ []) := by
  unfold handleSubmit
  by_cases h1 : f.date = [] <;> by_cases h2 : f.category = [] <;>
    simp [h1, h2] <;> cases reportToEdit <;> simp

/-- A form state with a date but no category, for witnesses. -/
def sampleFormNoCat : ReportForm :=
  ⟨"2024-05-01".data, [], [], [], [], [], [], [], [], [], [], [], [], [], [],
    [], [], []⟩

/-- A complete form state, for witnesses. -/
def sampleFormOk : ReportForm :=
  { sampleFormNoCat with category := "amaze_ads".data }

/-- C5 witness: an empty category blocks; a complete form issues the create
call. -/
theorem claim_C5_witness :
    handleSubmit sampleFormNoCat none = .blocked ∧
    handleSubmit sampleFormOk none = .createCall (payloadOfForm sampleFormOk) :=
  ⟨(claim_C5 sampleFormNoCat none).1 (Or.inl rfl),
    (claim_C5 sampleFormOk none).2.1 (by decide) (by decide)⟩

/-! ## lib/accounts.ts: API client error normalization -/

/-- The `{data} | {error}` result shape every client function returns. -/
inductive ApiResult (α : Type) where
  | ok : α → ApiResult α
  | err : List Char → ApiResult α

/-- Outcome of `await response.json()`: a value, or a thrown parse error. -/
inductive JsonParse (α : Type) where
  | val : α → JsonParse α
  | raise : List Char → JsonParse α

/-- Every possible outcome of a `fetch` call as the client code observes it:
the promise rejects (network error), or a response arrives with `ok` true
(body parsed as `α`) or `ok` false (body parsed for its `detail` field, which
may be absent). -/
inductive FetchOutcome (α : Type) where
  | reject : List Char → FetchOutcome α
  | success : JsonParse α → FetchOutcome α
  | failure : JsonParse (Option (List Char)) → FetchOutcome α

/-- `errorData.detail || defaultMsg`. -/
def jsOrStr (d : Option (List Char)) (dflt : List Char) : List Char :=
  match d with
  | some s => if s = [] then dflt else s
  | none => dflt

/-- The try-block shared by all five client functions: await fetch (which may
reject), check `response.ok`, parse JSON (which may throw), and throw
`new Error(errorData.detail || default)` on a non-ok response.
`Except.error` is an exception propagating out of the try block. -/
def fetchBody (α : Type) (defaultMsg : List Char) :
    FetchOutcome α → Except (List Char) α
  | .reject m => .error m
  | .success (.val a) => .ok a
  | .success (.raise m) => .error m
  | .failure (.val detail) => .error (jsOrStr detail defaultMsg)
  | .failure (.raise m) => .error m

/-- The surrounding catch: every exception becomes an `{error}` result, so no
exception reaches the caller. -/
def catchToResult {α : Type} : Except (List Char) α → ApiResult α
  | .ok a => .ok a
  | .error m => .err m

/-- `\x7bmessage, report\x7d` response of create/update. -/
structure MessageReport where
  message : List Char
  report : DailySalesReport

/-- `\x7bmessage, id\x7d` response of delete. -/
structure MessageId where
  message : List Char
  id : Int

/-- Decimal rendering of an integer, for `${id}` interpolation. -/
def intToChars (i : Int) : List Char :=
  (if i < 0 then ['-'] else []) ++ Nat.toDigits 10 i.natAbs

/-- createDailySalesReport (lib/accounts.ts). -/
def createDailySalesReport (_payload : ReportPayload)
    (o : FetchOutcome MessageReport) : ApiResult MessageReport :=
  catchToResult (fetchBody _ ("Failed to create daily sales report".data) o)

/-- getAllDailySalesReports (lib/accounts.ts). -/
def getAllDailySalesReports (o : FetchOutcome (List DailySalesReport)) :
    ApiResult (List DailySalesReport) :=
  catchToResult (fetchBody _ ("Failed to fetch daily sales reports".data) o)

/-- getDailySalesReportById (lib/accounts.ts). -/
def getDailySalesReportById (rid : Int) (o : FetchOutcome DailySalesReport) :
    ApiResult DailySalesReport :=
  catchToResult
    (fetchBody _ ("Failed to fetch daily sales report ".data ++ intToChars rid) o)

/-- updateDailySalesReport (lib/accounts.ts). -/
def updateDailySalesReport (rid : Int) (_payload : ReportPayload)
    (o : FetchOutcome MessageReport) : ApiResult MessageReport :=
  catchToResult
    (fetchBody _ ("Failed to update daily sales report ".data ++ intToChars rid) o)

/-- deleteDailySalesReport (lib/accounts.ts). -/
def deleteDailySalesReport (rid : Int) (o : FetchOutcome MessageId) :
    ApiResult MessageId :=
  catchToResult
    (fetchBody _ ("Failed to delete daily sales report ".data ++ intToChars rid) o)

/-- The normalization contract: a `{data}` result exactly on a parsed ok
response, and a `{error}` result with a string message on every other
outcome — in particular on every non-ok HTTP response — with no exception
propagating. -/
def normalizes {α : Type} (res : ApiResult α) (o : FetchOutcome α) : Prop :=
  match o with
  | .success (.val v) => res = .ok v
  | _ => ∃ m, res = .err m

theorem normalizes_catch {α : Type} (dflt : List Char) (o : FetchOutcome α) :
    normalizes (catchToResult (fetchBody α dflt o)) o := by
  cases o with
  | reject m => exact ⟨m, rfl⟩
  | success j =>
    cases j with
    | val a => rfl
    | raise m => exact ⟨m, rfl⟩
  | failure j =>
    cases j with
    | val detail => exact ⟨jsOrStr detail dflt, rfl⟩
    | raise m => exact ⟨m, rfl⟩

/-- C7: each of the five client functions of lib/accounts.ts returns `{data}`
exactly when the response is ok and its body parses, and otherwise returns
`{error}` with a string message — for every fetch outcome, including network
rejections, JSON parse failures and non-ok HTTP responses; no exception
propagates to the caller. -/
theorem claim_C7 :
    (∀ (p : ReportPayload) (o : FetchOutcome MessageReport),
      normalizes (createDailySalesReport p o) o) ∧
    (∀ o : FetchOutcome (List DailySalesReport),
      normalizes (getAllDailySalesReports o) o) ∧
    (∀ (rid : Int) (o : FetchOutcome DailySalesReport),
      normalizes (getDailySalesReportById rid o) o) ∧
    (∀ (rid : Int) (p : ReportPayload) (o : FetchOutcome MessageReport),
      normalizes (updateDailySalesReport rid p o) o) ∧
    (∀ (rid : Int) (o : FetchOutcome MessageId),
      normalizes (deleteDailySalesReport rid o) o) :=
  ⟨fun _ o => normalizes_catch _ o, fun o => normalizes_catch _ o,
    fun _ o => normalizes_catch _ o, fun _ _ o => normalizes_catch _ o,
    fun _ o => normalizes_catch _ o⟩

/-! ## hr-dashboard.tsx: the grouped attendance register display -/

/-- The STATUS_PRIORITY lookup with its `|| 99` fallback: present 1, late 2,
half_day 3, leave 4, absent 5, anything else (including the explicit
"unknown" entry) 99. -/
def STATUS_PRIORITY (s : List Char) : Int :=
  if s = "present".data then 1
  else if s = "late".data then 2
  else if s = "half_day".data then 3
  else if s = "leave".data then 4
  else if s = "absent".data then 5
  else 99

/-- ASCII toLowerCase (statuses are ASCII identifiers). -/
def asciiLower (s : List Char) : List Char :=
  s.map fun c => if 'A' ≤ c ∧ c ≤ 'Z' then Char.ofNat (c.toNat + 32) else c

/-- `STATUS_PRIORITY[(a.status || 'unknown').toLowerCase()] || 99`. -/
def statusKeyOf (r : Attendance) : Int :=
  STATUS_PRIORITY (asciiLower (match r.status with
    | some s => if s = [] then "unknown".data else s
    | none => "unknown".data))

/-- The in-group comparator: status priority difference, then
`localeCompare` on staff names (empty-string default); `cmp` is the
environment's localeCompare. -/
def attendanceCmp (cmp : List Char → List Char → Int) (a b : Attendance) :
    Int :=
  if statusKeyOf a ≠ statusKeyOf b then statusKeyOf a - statusKeyOf b
  else cmp (a.staff_name.getD []) (b.staff_name.getD [])

/-- The comparator as a sort-order test. -/
def attendanceLe (cmp : List Char → List Char → Int) (a b : Attendance) :
    Bool :=
  decide (attendanceCmp cmp a b ≤ 0)

/-- The string "Unknown Date". -/
def strUnknownDate : List Char := "Unknown Date".data

/-- The grouping key: the locale-formatted date (`fmtDate` models
toLocaleDateString) or "Unknown Date" for a falsy date. -/
def groupKeyOf (fmtDate : List Char → List Char) (d : Option (List Char)) :
    List Char :=
  match d with
  | some s => if s = [] then strUnknownDate else fmtDate s
  | none => strUnknownDate

/-- One step of the reduce in groupedData: push the record onto its key's
bucket (inserting the key in first-use order, as JavaScript object keys do)
and re-sort that bucket, exactly as the source sorts after every push. -/
def updateGroups (cmp : List Char → List Char → Int)
    (groups : List (List Char × List Attendance)) (k : List Char)
    (r : Attendance) : List (List Char × List Attendance) :=
  match groups with
  | [] => [(k, List.mergeSort [r] (attendanceLe cmp))]
  | (k', b) :: rest =>
    if k' = k then (k', List.mergeSort (b ++ [r]) (attendanceLe cmp)) :: rest
    else (k', b) :: updateGroups cmp rest k r

/-- groupedData (AttendanceRegisterSection): the reduce over the records. -/
def groupedData (fmtDate : List Char → List Char)
    (cmp : List Char → List Char → Int) (data : List Attendance) :
    List (List Char × List Attendance) :=
  data.foldl (fun acc r => updateGroups cmp acc (groupKeyOf fmtDate r.date) r) []

/-- Reading `groupedData[k]`. -/
def getBucket (groups : List (List Char × List Attendance)) (k : List Char) :
    List Attendance :=
  match groups with
  | [] => []
  | (k', b) :: rest => if k' = k then b else getBucket rest k

/-- sortedDates: `Object.keys(groupedData)` (first-use order) sorted by the
re-parsed date descending; `parseKey` models `new Date(key).getTime()`. -/
def sortedDates (parseKey : List Char → Int)
    (groups : List (List Char × List Attendance)) : List (List Char) :=
  (groups.map Prod.fst).mergeSort fun a b => decide (parseKey b ≤ parseKey a)

theorem getBucket_updateGroups_self (cmp : List Char → List Char → Int)
    (groups : List (List Char × List Attendance)) (k : List Char)
    (r : Attendance) :
    getBucket (updateGroups cmp groups k r) k =
      List.mergeSort (getBucket groups k ++ [r]) (attendanceLe cmp) := by
  induction groups with
  | nil => simp [updateGroups, getBucket]
  | cons p rest ih =>
    obtain ⟨k', b⟩ := p
    by_cases hk : k' = k
    · simp [updateGroups, getBucket, hk]
    · simp [updateGroups, getBucket, hk, ih]

theorem getBucket_updateGroups_other (cmp : List Char → List Char → Int)
    (groups : List (List Char × List Attendance)) (k k' : List Char)
    (r : Attendance) (hne : k' ≠ k) :
    getBucket (updateGroups cmp groups k r) k' = getBucket groups k' := by
  induction groups with
  | nil => simp [updateGroups, getBucket, Ne.symm hne]
  | cons p rest ih =>
    obtain ⟨k0, b⟩ := p
    by_cases hk : k0 = k
    · subst hk
      simp [updateGroups, getBucket, Ne.symm hne]
    · by_cases hk' : k0 = k'
      · simp [updateGroups, getBucket, hk, hk', hne]
      · simp [updateGroups, getBucket, hk, hk', ih]

theorem map_fst_updateGroups (cmp : List Char → List Char → Int)
    (groups : List (List Char × List Attendance)) (k : List Char)
    (r : Attendance) :
    (updateGroups cmp groups k r).map Prod.fst =
      if k ∈ groups.map Prod.fst then groups.map Prod.fst
      else groups.map Prod.fst ++ [k] := by
  induction groups with
  | nil => simp [updateGroups]
  | cons p rest ih =>
    obtain ⟨k0, b⟩ := p
    by_cases hk : k0 = k
    · subst hk
      simp [updateGroups]
    · simp only [updateGroups, if_neg hk, List.map_cons, ih, List.mem_cons]
      by_cases hmem : k ∈ rest.map Prod.fst
      · simp [hmem]
      · simp [hmem, Ne.symm hk]

theorem attendanceLe_trans (cmp : List Char → List Char → Int)
    (hct : ∀ x y z, cmp x y ≤ 0 → cmp y z ≤ 0 → cmp x z ≤ 0)
    (a b c : Attendance) (h1 : attendanceLe cmp a b = true)
    (h2 : attendanceLe cmp b c = true) : attendanceLe cmp a c = true := by
  simp only [attendanceLe, attendanceCmp, decide_eq_true_eq] at h1 h2 ⊢
  split_ifs at h1 h2 ⊢ <;>
    first
      | exact hct _ _ _ h1 h2
      | omega

theorem attendanceLe_total (cmp : List Char → List Char → Int)
    (hcto : ∀ x y, cmp x y ≤ 0 ∨ cmp y x ≤ 0) (a b : Attendance) :
    (attendanceLe cmp a b || attendanceLe cmp b a) = true := by
  simp only [attendanceLe, attendanceCmp, Bool.or_eq_true, decide_eq_true_eq]
  by_cases hab : statusKeyOf a = statusKeyOf b
  · rw [if_neg (not_not_intro hab), if_neg (not_not_intro hab.symm)]
    exact hcto _ _
  · rw [if_pos hab, if_pos (Ne.symm hab)]
    omega

theorem grouped_aux (fmtDate : List Char → List Char)
    (cmp : List Char → List Char → Int)
    (hct : ∀ x y z, cmp x y ≤ 0 → cmp y z ≤ 0 → cmp x z ≤ 0)
    (data : List Attendance) :
    ∀ (acc : List (List Char × List Attendance)) (processed : List Attendance),
    (∀ k, (getBucket acc k).Perm
      (processed.filter fun r => decide (groupKeyOf fmtDate r.date = k))) →
    (∀ k, List.Pairwise (fun a b => attendanceLe cmp a b = true)
      (getBucket acc k)) →
    (∀ k, k ∈ acc.map Prod.fst ↔ ∃ r ∈ processed, groupKeyOf fmtDate r.date = k) →
    (hcto : ∀ x y, cmp x y ≤ 0 ∨ cmp y x ≤ 0) →
    (∀ k, (getBucket
        (data.foldl (fun a r => updateGroups cmp a (groupKeyOf fmtDate r.date) r) acc)
        k).Perm
      ((processed ++ data).filter fun r => decide (groupKeyOf fmtDate r.date = k))) ∧
    (∀ k, List.Pairwise (fun a b => attendanceLe cmp a b = true)
      (getBucket
        (data.foldl (fun a r => updateGroups cmp a (groupKeyOf fmtDate r.date) r) acc)
        k)) ∧
    (∀ k, k ∈ (data.foldl
        (fun a r => updateGroups cmp a (groupKeyOf fmtDate r.date) r) acc).map
        Prod.fst ↔
      ∃ r ∈ processed ++ data, groupKeyOf fmtDate r.date = k) := by
  induction data with
  | nil =>
    intro acc processed h1 h2 h3 _
    simp only [List.foldl_nil, List.append_nil]
    exact ⟨h1, h2, h3⟩
  | cons r rest ih =>
    intro acc processed h1 h2 h3 hcto
    simp only [List.foldl_cons]
    have hres := ih (updateGroups cmp acc (groupKeyOf fmtDate r.date) r)
      (processed ++ [r]) ?_ ?_ ?_ hcto
    · have hpr : processed ++ r :: rest = (processed ++ [r]) ++ rest := by
        simp
      rw [hpr]
      exact hres
    · intro k
      by_cases hk : k = groupKeyOf fmtDate r.date
      · subst hk
        rw [getBucket_updateGroups_self]
        have hperm1 := List.mergeSort_perm
          (getBucket acc (groupKeyOf fmtDate r.date) ++ [r]) (attendanceLe cmp)
        have hperm2 := (h1 (groupKeyOf fmtDate r.date)).append
          (List.Perm.refl [r])
        have hfil : (processed ++ [r]).filter
            (fun x => decide (groupKeyOf fmtDate x.date = groupKeyOf fmtDate r.date)) =
            (processed.filter
              (fun x => decide (groupKeyOf fmtDate x.date = groupKeyOf fmtDate r.date)))
              ++ [r] := by
          rw [List.filter_append]
          simp
        rw [hfil]
        exact hperm1.trans hperm2
      · rw [getBucket_updateGroups_other _ _ _ _ _ hk]
        have hne : ¬ (groupKeyOf fmtDate r.date = k) := fun h => hk h.symm
        have hfil : (processed ++ [r]).filter
            (fun x => decide (groupKeyOf fmtDate x.date = k)) =
            processed.filter (fun x => decide (groupKeyOf fmtDate x.date = k)) := by
          rw [List.filter_append]
          simp [hne]
        rw [hfil]
        exact h1 k
    · intro k
      by_cases hk : k = groupKeyOf fmtDate r.date
      · subst hk
        rw [getBucket_updateGroups_self]
        exact List.sorted_mergeSort (attendanceLe_trans cmp hct)
          (attendanceLe_total cmp hcto) _
      · rw [getBucket_updateGroups_other _ _ _ _ _ hk]
        exact h2 k
    · intro k
      rw [map_fst_updateGroups]
      by_cases hmem : groupKeyOf fmtDate r.date ∈ acc.map Prod.fst
      · rw [if_pos hmem]
        rw [h3 k]
        constructor
        · rintro ⟨r', hr', hkey⟩
          exact ⟨r', List.mem_append_left _ hr', hkey⟩
        · rintro ⟨r', hr', hkey⟩
          rcases List.mem_append.mp hr' with hin | hin
          · exact ⟨r', hin, hkey⟩
          · have : r' = r := by simpa using hin
            subst this
            subst hkey
            exact (h3 _).mp hmem
      · rw [if_neg hmem, List.mem_append]
        simp only [List.mem_singleton, h3 k]
        constructor
        · rintro (⟨r', hr', hkey⟩ | hk)
          · exact ⟨r', List.mem_append_left _ hr', hkey⟩
          · subst hk
            exact ⟨r, List.mem_append_right _ (by simp), rfl⟩
        · rintro ⟨r', hr', hkey⟩
          rcases List.mem_append.mp hr' with hin | hin
          · exact Or.inl ⟨r', hin, hkey⟩
          · have : r' = r := by simpa using hin
            subst this
            exact Or.inr hkey.symm

/-- C10: the attendance register display.  `fmtDate` models
`toLocaleDateString`, `cmp` models `localeCompare` (assumed a consistent
comparator, as ECMAScript requires of it), and `parseKey` models
`new Date(formattedDate).getTime()`.  For every record list: every date
group holds exactly the records whose formatted date is its key; every group
is ordered by the status-priority-then-name comparator; the displayed keys
are exactly those of the records; and the group order is the key list sorted
by re-parsed date, newest first. -/
theorem claim_C10 (fmtDate : List Char → List Char)
    (cmp : List Char → List Char → Int) (parseKey : List Char → Int)
    (hct : ∀ x y z, cmp x y ≤ 0 → cmp y z ≤ 0 → cmp x z ≤ 0)
    (hcto : ∀ x y, cmp x y ≤ 0 ∨ cmp y x ≤ 0)
    (data : List Attendance) :
    (∀ k, (getBucket (groupedData fmtDate cmp data) k).Perm
      (data.filter fun r => decide (groupKeyOf fmtDate r.date = k))) ∧
    (∀ k, List.Pairwise (fun a b => attendanceCmp cmp a b ≤ 0)
      (getBucket (groupedData fmtDate cmp data) k)) ∧
    (∀ k, k ∈ (groupedData fmtDate cmp data).map Prod.fst ↔
      ∃ r ∈ data, groupKeyOf fmtDate r.date = k) ∧
    (sortedDates parseKey (groupedData fmtDate cmp data)).Perm
      ((groupedData fmtDate cmp data).map Prod.fst) ∧
    List.Chain' (fun k1 k2 => parseKey k2 ≤ parseKey k1)
      (sortedDates parseKey (groupedData fmtDate cmp data)) := by
  obtain ⟨g1, g2, g3⟩ := grouped_aux fmtDate cmp hct data [] []
    (fun k => by simp [getBucket]) (fun k => by simp [getBucket])
    (fun k => by simp) hcto
  refine ⟨fun k => g1 k, fun k => ?_, fun k => g3 k, List.mergeSort_perm _ _, ?_⟩
  · exact (g2 k).imp fun hab => by simpa [attendanceLe] using hab
  · apply List.Pairwise.chain'
    have hs := @List.sorted_mergeSort (List Char)
      (fun a b => decide (parseKey b ≤ parseKey a))
      (fun a b c h1 h2 => by
        simp only [decide_eq_true_eq] at h1 h2 ⊢
        omega)
      (fun a b => by
        simp only [Bool.or_eq_true, decide_eq_true_eq]
        omega)
      ((groupedData fmtDate cmp data).map Prod.fst)
    exact hs.imp fun hab => by simpa using hab

/-- C10 witness: concrete records with the identity as date formatter, the
constant-zero comparator (a consistent localeCompare), and a date-only parse
as key. -/
theorem claim_C10_witness :
    ((getBucket (groupedData (fun s => s) (fun _ _ => 0)
        [sampleAtt1, sampleAtt2]) ("2024-05-01".data)).Perm
      ([sampleAtt1, sampleAtt2].filter fun r =>
        decide (groupKeyOf (fun s => s) r.date = "2024-05-01".data))) ∧
    List.Pairwise (fun a b => attendanceCmp (fun _ _ => 0) a b ≤ 0)
      (getBucket (groupedData (fun s => s) (fun _ _ => 0)
        [sampleAtt1, sampleAtt2]) ("2024-05-01".data)) ∧
    List.Chain'
      (fun k1 k2 => (parseDateOnly k2).getD 0 ≤ (parseDateOnly k1).getD 0)
      (sortedDates (fun s => (parseDateOnly s).getD 0)
        (groupedData (fun s => s) (fun _ _ => 0) [sampleAtt1, sampleAtt2])) :=
  ⟨(claim_C10 (fun s => s) (fun _ _ => 0) (fun s => (parseDateOnly s).getD 0)
      (fun _ _ _ h1 _ => h1) (fun _ _ => Or.inl (le_refl 0))
      [sampleAtt1, sampleAtt2]).1 ("2024-05-01".data),
    (claim_C10 (fun s => s) (fun _ _ => 0) (fun s => (parseDateOnly s).getD 0)
      (fun _ _ _ h1 _ => h1) (fun _ _ => Or.inl (le_refl 0))
      [sampleAtt1, sampleAtt2]).2.1 ("2024-05-01".data),
    (claim_C10 (fun s => s) (fun _ _ => 0) (fun s => (parseDateOnly s).getD 0)
      (fun _ _ _ h1 _ => h1) (fun _ _ => Or.inl (le_refl 0))
      [sampleAtt1, sampleAtt2]).2.2.2.2⟩
